import Mathlib

/-!
Verification of the sonysAuto listing API route
(`src/app/(others)/inventory/[...id]/_CarHighlights.tsx`, second document:
the `POST` and `GET` route handlers).

The handlers are embedded shallowly: JavaScript numbers are modelled by
`JsNum` (NaN, the infinities, and integral values — the route only ever
produces integral values from its parameters), strings by Lean `String`,
and the MongoDB aggregation pipeline `createCarPipeline` — whose source
file `src/pipeline/filterCars` is not part of the repository snapshot —
is modelled from the specification (each such definition is marked
`Modelled from the spec:`).
-/

namespace SonysAuto

/-- Model of a JavaScript number as produced by `parseInt` / `parseFloat`
and the arithmetic in the route: NaN, the two infinities, or an integral
value.  Fractional values never arise in the handler's own computations
on the inputs the claims concern. -/
inductive JsNum where
  | nan
  | inf
  | negInf
  | num (v : Int)
  deriving DecidableEq

/-- JavaScript subtraction on `JsNum` (used for `page - 1`). -/
def jsSub : JsNum → JsNum → JsNum
  | .num a, .num b => .num (a - b)
  | .inf, .num _ => .inf
  | .negInf, .num _ => .negInf
  | .num _, .inf => .negInf
  | .num _, .negInf => .inf
  | .inf, .negInf => .inf
  | .negInf, .inf => .negInf
  | _, _ => .nan

/-- JavaScript multiplication on `JsNum` (used for `(page - 1) * limit`). -/
def jsMul : JsNum → JsNum → JsNum
  | .num a, .num b => .num (a * b)
  | .nan, _ => .nan
  | _, .nan => .nan
  | .inf, .inf => .inf
  | .inf, .negInf => .negInf
  | .negInf, .inf => .negInf
  | .negInf, .negInf => .inf
  | .inf, .num b => if b = 0 then .nan else if 0 < b then .inf else .negInf
  | .num a, .inf => if a = 0 then .nan else if 0 < a then .inf else .negInf
  | .negInf, .num b => if b = 0 then .nan else if 0 < b then .negInf else .inf
  | .num a, .negInf => if a = 0 then .nan else if 0 < a then .negInf else .inf

/-- Accumulate a run of decimal digit characters into a natural number. -/
def digitsToNat : List Char → Nat → Nat
  | [], acc => acc
  | c :: cs, acc => digitsToNat cs (acc * 10 + (c.toNat - 48))

/-- Parse a non-empty run of leading decimal digits; `none` when the list
does not start with a digit. -/
def parseDigits (cs : List Char) : Option Nat :=
  let ds := cs.takeWhile (·.isDigit)
  if ds.isEmpty then none else some (digitsToNat ds 0)

/-- Model of JavaScript `parseInt(s, 10)`: an optional sign followed by a
longest run of decimal digits; anything else yields NaN.  (Leading
whitespace is not modelled; the route never passes padded strings.) -/
def jsParseInt (s : String) : JsNum :=
  match s.data with
  | '-' :: rest =>
    match parseDigits rest with
    | some n => .num (-(n : Int))
    | none => .nan
  | '+' :: rest =>
    match parseDigits rest with
    | some n => .num (n : Int)
    | none => .nan
  | cs =>
    match parseDigits cs with
    | some n => .num (n : Int)
    | none => .nan

/-- Model of JavaScript `parseFloat` on the forms the route feeds it:
`"Infinity"`, `"-Infinity"`, and integral numerals.  Fractional numerals
are not modelled — no claim depends on them, and the route's own default
arguments are `"0"` and `"Infinity"`. -/
def jsParseFloat (s : String) : JsNum :=
  if s = "Infinity" then .inf
  else if s = "-Infinity" then .negInf
  else jsParseInt s

/-- JavaScript `x || d` for an optional string: `null` and `""` are falsy. -/
def jsOrDefault (p : Option String) (d : String) : String :=
  match p with
  | some s => if s = "" then d else s
  | none => d

/-- JavaScript `x || d` for a `JsNum`: NaN and `0` are falsy. -/
def jsOrNum (x : JsNum) (d : Int) : JsNum :=
  match x with
  | .num v => if v = 0 then .num d else .num v
  | .nan => .num d
  | x => x

/-- `pat` begins the character list `s`. -/
def startsWithChars : List Char → List Char → Bool
  | [], _ => true
  | _ :: _, [] => false
  | p :: ps, c :: cs => p == c && startsWithChars ps cs

/-- `pat` occurs somewhere inside `s` (JavaScript `String.includes`). -/
def containsChars : List Char → List Char → Bool
  | [], pat => pat.isEmpty
  | c :: rest, pat => startsWithChars pat (c :: rest) || containsChars rest pat

/-- JavaScript `s.includes(pat)`. -/
def strContains (s pat : String) : Bool :=
  containsChars s.data pat.data

/-- Character-wise lower-casing (JavaScript `toLowerCase` on the ASCII
range the data uses). -/
def strToLower (s : String) : String :=
  String.mk (s.data.map Char.toLower)

/-- Split a character list at every occurrence of `sep` (JavaScript
`String.split` with a one-character separator: an empty input gives one
empty group, adjacent separators give empty groups). -/
def splitOnChar (sep : Char) : List Char → List (List Char)
  | [] => [[]]
  | c :: rest =>
    if c = sep then [] :: splitOnChar sep rest
    else
      match splitOnChar sep rest with
      | [] => [[c]]
      | g :: gs => (c :: g) :: gs

/-- JavaScript `s.split(sep)` for the one-character separators the route
uses (`";"`, `":"`, `","`). -/
def strSplit (sep : Char) (s : String) : List String :=
  (splitOnChar sep s.data).map String.mk

/-- The route's `pathname.replace(/\/$/g, "")`: drop one trailing slash. -/
def dropLastSlash : List Char → List Char
  | [] => []
  | [c] => if c = '/' then [] else [c]
  | c :: cs => c :: dropLastSlash cs

/-- `pathname.replace(/\/$/g, "")` on strings. -/
def stripTrailingSlash (s : String) : String :=
  String.mk (dropLastSlash s.data)

/-- The route's `pathname.replace(/^\//, "")`: drop one leading slash. -/
def stripLeadingSlash (s : String) : String :=
  match s.data with
  | c :: rest => if c = '/' then String.mk rest else s
  | [] => s

/-- One parsed group of the `details` query parameter. -/
structure DetailFilter where
  name : String
  values : List String
  deriving DecidableEq

/-- One group of `detailsParam.split(";")`:
`const [name, values] = detail.split(":")` followed by
`values ? values.split(",") : []`. -/
def parseDetailGroup (detail : String) : DetailFilter :=
  let parts := strSplit ':' detail
  { name := parts.headD ""
    values :=
      match parts[1]? with
      | some v => if v = "" then [] else strSplit ',' v
      | none => [] }

/-- The route's construction of `detailsFilter` from the `details`
query parameter (lines 217–225): split on `";"`, parse each group, and
keep only groups whose value list is non-empty.  A missing or empty
parameter is falsy in JavaScript, leaving the filter empty. -/
def parseDetailsParam (p : Option String) : List DetailFilter :=
  match p with
  | some s =>
    if s = "" then []
    else ((strSplit ';' s).map parseDetailGroup).filter (fun d => !d.values.isEmpty)
  | none => []

/-- The route's construction of `featuresFilter` from the `features`
query parameter: `selectedFeatures.split(",")` when truthy, else `[]`. -/
def parseFeaturesParam (p : Option String) : List String :=
  match p with
  | some s => if s = "" then [] else strSplit ',' s
  | none => []

/-- The route's `sortFieldMap`: external sort names to internal derived
numeric fields. -/
def sortFieldMap : String → Option String
  | "price" => some "numericPrice"
  | "year" => some "numericYear"
  | "mileage" => some "numericMileage"
  | "size" => some "numericSize"
  | "weight" => some "numericWeight"
  | _ => none

/-- One entry of `sortByParam.split(",")`:
`const [name, order] = sort.split(":")` with
`order === "asc" ? 1 : -1`. -/
def parseSortEntry (sort : String) : String × Int :=
  let parts := strSplit ':' sort
  (parts.headD "", if parts[1]? = some "asc" then 1 else -1)

/-- JavaScript object property assignment `obj[k] = v` on an
insertion-ordered association list: overwrite in place when the key
exists, append otherwise. -/
def jsObjSet (obj : List (String × Int)) (k : String) (v : Int) : List (String × Int) :=
  if obj.any (fun e => e.1 == k) then
    obj.map (fun e => if e.1 == k then (k, v) else e)
  else obj ++ [(k, v)]

/-- The `forEach` loop over the parsed sort entries: assign
`sortStage[sortFieldMap[name]] = order` for each recognized name,
ignore unrecognized names. -/
def applySortEntries (entries : List (String × Int))
    (stage : List (String × Int)) : List (String × Int) :=
  entries.foldl
    (fun st e =>
      match sortFieldMap e.1 with
      | some f => jsObjSet st f e.2
      | none => st)
    stage

/-- The value of `sortStage` right before the final emptiness check
(lines 228–250): the default `createdAt: -1`, replaced — when `sortBy`
is truthy — by the entries rebuilt from the parsed sort list. -/
def rawSortStage (p : Option String) : List (String × Int) :=
  match p with
  | some s =>
    if s = "" then [("createdAt", (-1 : Int))]
    else applySortEntries ((strSplit ',' s).map parseSortEntry) []
  | none => [("createdAt", (-1 : Int))]

/-- The route's computation of `sortStage` (lines 227–254): if nothing
survived the field mapping, fall back to the default (line 252–254). -/
def computeSortStage (p : Option String) : List (String × Int) :=
  if (rawSortStage p).isEmpty then [("createdAt", (-1 : Int))]
  else rawSortStage p

/-- A listing document as the query builder sees it.  `details` pairs a
detail name with an optional option value (the data-model invariant lets
options be null); `numericPrice` and `createdAt` are the derived numeric
fields the pipeline sorts and filters on. -/
structure Listing where
  title : String
  domain : List String
  details : List (String × Option String)
  features : List String
  numericPrice : Int
  createdAt : Int
  deriving DecidableEq

/-- Lower price bound test `bound <= v` under JavaScript comparison
semantics (NaN compares false). -/
def lowerLe (bound : JsNum) (v : Int) : Bool :=
  match bound with
  | .num b => decide (b ≤ v)
  | .negInf => true
  | .inf => false
  | .nan => false

/-- Upper price bound test `v <= bound` under JavaScript comparison
semantics (NaN compares false). -/
def leUpper (v : Int) (bound : JsNum) : Bool :=
  match bound with
  | .num b => decide (v ≤ b)
  | .inf => true
  | .negInf => false
  | .nan => false

/-- Everything the `GET` handler hands to `createCarPipeline`
(line 264–275). -/
structure QueryArgs where
  category : String
  search : String
  detailsFilter : List DetailFilter
  featuresFilter : List String
  sortStage : List (String × Int)
  skip : JsNum
  limit : JsNum
  minPrice : JsNum
  maxPrice : JsNum

/-- Modelled from the spec: the match stage of `createCarPipeline`
(its source `src/pipeline/filterCars` is not in the snapshot), spec
§4.1 steps 1–6: category (with `"inventory"` meaning all), case-
insensitive title search, detail filters combined by AND across names
and OR within values, feature names combined by OR, and the numeric
price range. -/
def matchesQuery (q : QueryArgs) (car : Listing) : Bool :=
  (q.category == "inventory" || car.domain.contains q.category)
    && strContains (strToLower car.title) (strToLower q.search)
    && q.detailsFilter.all (fun df =>
        car.details.any (fun a =>
          a.1 == df.name &&
            match a.2 with
            | some v => df.values.contains v
            | none => false))
    && (q.featuresFilter.isEmpty
        || car.features.any (fun f => q.featuresFilter.contains f))
    && lowerLe q.minPrice car.numericPrice
    && leUpper car.numericPrice q.maxPrice

/-- Modelled from the spec: the filtered logical set all three facet
branches of the pipeline see. -/
def filterListings (q : QueryArgs) (db : List Listing) : List Listing :=
  db.filter (matchesQuery q)

/-- Value of a sortable internal field on a listing; unmodelled derived
fields read as `0`. -/
def fieldVal (car : Listing) (f : String) : Int :=
  if f == "numericPrice" then car.numericPrice
  else if f == "createdAt" then car.createdAt
  else 0

/-- Lexicographic comparison along the sort stage. -/
def sortKeyLe (stage : List (String × Int)) (a b : Listing) : Bool :=
  match stage with
  | [] => true
  | (f, dir) :: rest =>
    let va := fieldVal a f
    let vb := fieldVal b f
    if va = vb then sortKeyLe rest a b
    else if dir = 1 then decide (va < vb) else decide (vb < va)

/-- Ordered insertion for the pipeline's sort model. -/
def insertSortedBy (le : Listing → Listing → Bool) (x : Listing) :
    List Listing → List Listing
  | [] => [x]
  | y :: ys => if le x y then x :: y :: ys else y :: insertSortedBy le x ys

/-- Insertion sort for the pipeline's sort model. -/
def sortListings (le : Listing → Listing → Bool) : List Listing → List Listing
  | [] => []
  | x :: xs => insertSortedBy le x (sortListings le xs)

/-- Skip/limit counts as the pipeline consumes them; non-numeric values
degrade to `0`. -/
def jsToNat : JsNum → Nat
  | .num v => v.toNat
  | _ => 0

/-- The price range summary object. -/
structure PriceRange where
  min : Int
  max : Int
  deriving DecidableEq

/-- Modelled from the spec: minimum and maximum derived numeric price
across the whole filtered set; `min: 0, max: 0` when it is empty
(spec §4.1 step 8). -/
def priceRangeOf (cars : List Listing) : PriceRange :=
  match cars with
  | [] => { min := 0, max := 0 }
  | c :: rest =>
    rest.foldl
      (fun r x =>
        { min := Min.min r.min x.numericPrice
          max := Max.max r.max x.numericPrice })
      { min := c.numericPrice, max := c.numericPrice }

/-- The single document the faceted aggregation returns. -/
structure FacetResult where
  cars : List Listing
  totalCars : Nat
  priceRange : PriceRange

/-- Modelled from the spec: executing `createCarPipeline` — filter, then
in one pass (a) sort, skip and limit to a page, (b) count all matches,
(c) reduce to the price range of all matches (spec §4.1 steps 7–8).
The handler's `result || defaults` fallback coincides with this model on
an empty filtered set.  The `carDetailOrderIds` ordering only permutes
detail sub-documents inside each returned listing and is not modelled. -/
def runPipeline (q : QueryArgs) (db : List Listing) : FacetResult :=
  let filtered := filterListings q db
  { cars :=
      ((sortListings (sortKeyLe q.sortStage) filtered).drop (jsToNat q.skip)).take
        (jsToNat q.limit)
    totalCars := filtered.length
    priceRange := priceRangeOf filtered }

/-- The request's query parameters, each absent or present
(`searchParams.get` returns null or a string). -/
structure SearchParams where
  page : Option String := none
  limit : Option String := none
  search : Option String := none
  details : Option String := none
  features : Option String := none
  sortBy : Option String := none
  minPrice : Option String := none
  maxPrice : Option String := none

/-- Line 259: `const skip = (page - 1) * limit`. -/
def computeSkip (page limit : JsNum) : JsNum :=
  jsMul (jsSub page (.num 1)) limit

/-- The category the handler derives from the (trailing-slash-stripped)
referer pathname (lines 201–203). -/
def derivedCategory (pathname : String) : String :=
  if strContains pathname "inventory" then "inventory"
  else stripLeadingSlash pathname

/-- Assembly of the pipeline arguments from the pathname and the query
parameters (lines 175–275). -/
def buildQueryArgs (pathname : String) (ps : SearchParams) : QueryArgs :=
  let page := jsParseInt (jsOrDefault ps.page "1")
  let limit := jsParseInt (jsOrDefault ps.limit "24")
  { category := derivedCategory pathname
    search := jsOrDefault ps.search ""
    detailsFilter := parseDetailsParam ps.details
    featuresFilter := parseFeaturesParam ps.features
    sortStage := computeSortStage ps.sortBy
    skip := computeSkip page limit
    limit := limit
    minPrice := jsParseFloat (jsOrDefault ps.minPrice "0")
    maxPrice := jsParseFloat (jsOrDefault ps.maxPrice "Infinity") }

/-- Line 283: `Math.ceil(totalCars / limit)` with `totalCars : Nat` and
a `JsNum` limit, following JavaScript division and `Math.ceil`. -/
def jsCeilDivNat (a : Nat) (limit : JsNum) : JsNum :=
  match limit with
  | .nan => .nan
  | .inf => .num 0
  | .negInf => .num 0
  | .num l =>
    if l = 0 then (if a = 0 then .nan else .inf)
    else if 0 < l then .num (((a + l.toNat - 1) / l.toNat : Nat) : Int)
    else .num (-((a / l.natAbs : Nat) : Int))

/-- The `pagination` object of the response body.  The 400 body carries
no `priceRange`, hence the option. -/
structure Pagination where
  currentPage : JsNum
  totalPages : JsNum
  limit : JsNum
  totalItems : Nat
  priceRange : Option PriceRange

/-- A `GET` response: HTTP status, the `data` array, and `pagination`. -/
structure GetResponse where
  status : Nat
  data : List Listing
  pagination : Pagination

/-- The `GET` handler (lines 167–305).  `titleMapKeys` stands for
`Object.keys(titleMap)` (the module `@/data` is not in the snapshot:
modelled from the spec as the known mapped category keys, matched
against the referer pathname exactly as the code does); `db` is the
listing collection; `refererPath` is the referer URL's pathname. -/
def GET (titleMapKeys : List String) (db : List Listing)
    (refererPath : String) (ps : SearchParams) : GetResponse :=
  let pathname := stripTrailingSlash refererPath
  let page := jsParseInt (jsOrDefault ps.page "1")
  let limit := jsParseInt (jsOrDefault ps.limit "24")
  if !strContains pathname "inventory" && !titleMapKeys.contains pathname then
    { status := 400
      data := []
      pagination :=
        { currentPage := jsOrNum page 1
          totalPages := .num 0
          limit := jsOrNum limit 10
          totalItems := 0
          priceRange := none } }
  else
    let q := buildQueryArgs pathname ps
    let result := runPipeline q db
    { status := 200
      data := result.cars
      pagination :=
        { currentPage := page
          totalPages := jsCeilDivNat result.totalCars limit
          limit := limit
          totalItems := result.totalCars
          priceRange := some result.priceRange } }

/-- An image attachment of the multipart body; only its original name
matters to the handler's control flow. -/
structure UploadFile where
  name : String
  deriving DecidableEq

/-- A `filename`/`path` pair recorded for one persisted image. -/
structure ImageRecord where
  filename : String
  path : String
  deriving DecidableEq

/-- The already-JSON-parsed scalar and array fields of the multipart
body (`title`, `price`, `extra`, `details`, `features`, `videos`,
`pages`, `sellerNotes`); identifiers are kept as strings. -/
structure CarFields where
  title : String := ""
  price : String := ""
  extra : String := ""
  details : List (String × Option String) := []
  features : List String := []
  videos : List String := []
  pages : List String := []
  sellerNotes : List (String × List String) := []

/-- The car document the handler constructs and saves. -/
structure Car where
  title : String
  price : String
  extra : String
  details : List (String × Option String)
  features : List String
  videos : List String
  images : List ImageRecord
  pages : List String
  sellerNotes : List (String × List String)

/-- Line 102: `const fileName = Date.now() + "-" + file.name` for the
`i`-th attachment; `nowAt i` is the clock reading of that call. -/
def imageFileName (nowAt : Nat → Nat) (i : Nat) (f : UploadFile) : String :=
  toString (nowAt i) ++ "-" ++ f.name

/-- Lines 100–113: the joined image writes.  `writeOk` is the file
store: whether writing under a given name succeeds.  `Promise.all`
rejects as soon as any single write fails, so the whole traversal
produces an error and no record list. -/
def uploadImages (nowAt : Nat → Nat) (writeOk : String → Bool) :
    Nat → List UploadFile → Except Unit (List ImageRecord)
  | _, [] => .ok []
  | i, f :: fs =>
    if writeOk (imageFileName nowAt i f) then
      match uploadImages nowAt writeOk (i + 1) fs with
      | .ok rest =>
        .ok ({ filename := imageFileName nowAt i f
               path := "api/uploads/" ++ imageFileName nowAt i f } :: rest)
      | .error e => .error e
    else .error ()

/-- A `POST` response: HTTP status and the saved document, `none` when
nothing was persisted. -/
structure PostResponse where
  status : Nat
  saved : Option Car

/-- The `POST` handler (lines 88–165): write all images, then construct
and save the car document; any thrown error is caught and answered with
status 500 and nothing saved. -/
def POST (nowAt : Nat → Nat) (writeOk : String → Bool)
    (files : List UploadFile) (fields : CarFields) : PostResponse :=
  match uploadImages nowAt writeOk 0 files with
  | .error _ => { status := 500, saved := none }
  | .ok uploaded =>
    { status := 200
      saved := some
        { title := fields.title
          price := fields.price
          extra := fields.extra
          details := fields.details
          features := fields.features
          videos := fields.videos
          images := uploaded
          pages := fields.pages
          sellerNotes := fields.sellerNotes } }

/-!  ## Theorems about the claims  -/

/-- C8: for every GET listing-search request, the skip count passed to
the query is `(page - 1) * limit` from the 1-based page number and the
limit, and the limit itself is passed through unchanged as the page
size. -/
theorem claim_C8 (pathname : String) (ps : SearchParams) (p l : Int)
    (hp : jsParseInt (jsOrDefault ps.page "1") = JsNum.num p)
    (hl : jsParseInt (jsOrDefault ps.limit "24") = JsNum.num l) :
    (buildQueryArgs pathname ps).skip = JsNum.num ((p - 1) * l) ∧
    (buildQueryArgs pathname ps).limit = JsNum.num l := by
  unfold buildQueryArgs computeSkip
  rw [hp, hl]
  exact ⟨rfl, rfl⟩

/-- Witness for C8 at `page=3`, `limit=10`: skip `20`, page size `10`. -/
theorem claim_C8_witness :
    (buildQueryArgs "/inventory" { page := some "3", limit := some "10" }).skip =
      JsNum.num ((3 - 1) * 10) ∧
    (buildQueryArgs "/inventory" { page := some "3", limit := some "10" }).limit =
      JsNum.num 10 :=
  claim_C8 "/inventory" { page := some "3", limit := some "10" } 3 10
    (by decide) (by decide)

/-- C9: an absent `minPrice` parameter defaults the lower price bound to
`0`, and an absent `maxPrice` parameter defaults the upper bound to
positive infinity, before the price filter is applied. -/
theorem claim_C9 (pathname : String) (ps : SearchParams) :
    (ps.minPrice = none → (buildQueryArgs pathname ps).minPrice = JsNum.num 0) ∧
    (ps.maxPrice = none → (buildQueryArgs pathname ps).maxPrice = JsNum.inf) := by
  constructor
  · intro h
    unfold buildQueryArgs
    rw [h]
    show jsParseFloat (jsOrDefault none "0") = JsNum.num 0
    decide
  · intro h
    unfold buildQueryArgs
    rw [h]
    show jsParseFloat (jsOrDefault none "Infinity") = JsNum.inf
    decide

/-- Witness for C9 at a request with neither price parameter present. -/
theorem claim_C9_witness :
    (buildQueryArgs "/inventory" {}).minPrice = JsNum.num 0 ∧
    (buildQueryArgs "/inventory" {}).maxPrice = JsNum.inf :=
  ⟨(claim_C9 "/inventory" {}).1 rfl, (claim_C9 "/inventory" {}).2 rfl⟩

/-- C10: any direction token of a `sortBy` entry other than exactly
`"asc"` — a different token or a missing `":direction"` segment — is
interpreted as descending (`-1`). -/
theorem claim_C10 (sort : String)
    (h : (strSplit ':' sort)[1]? ≠ some "asc") :
    (parseSortEntry sort).2 = -1 := by
  unfold parseSortEntry
  simp only [if_neg h]

/-- Witness for C10 at `"price:desc"` (wrong token) and `"price"`
(missing direction segment). -/
theorem claim_C10_witness :
    (parseSortEntry "price:desc").2 = -1 ∧ (parseSortEntry "price").2 = -1 :=
  ⟨claim_C10 "price:desc" (by decide), claim_C10 "price" (by decide)⟩

/-- A list is non-empty exactly when `isEmpty` is `false`. -/
theorem isEmpty_false_iff {α : Type} {l : List α} :
    l.isEmpty = false ↔ l ≠ [] := by
  cases l <;> simp

/-- C3: the `details` parameter is parsed into name/values pairs and
every pair with an empty value list (no colon, or an empty value
segment) is discarded before the query is built: the detail filter
handed to the pipeline contains exactly the parsed groups with at least
one value. -/
theorem claim_C3 (pathname : String) (ps : SearchParams) :
    (∀ df ∈ (buildQueryArgs pathname ps).detailsFilter, df.values ≠ []) ∧
    (∀ s, ps.details = some s → ∀ g ∈ strSplit ';' s,
      (parseDetailGroup g).values ≠ [] →
      parseDetailGroup g ∈ (buildQueryArgs pathname ps).detailsFilter) := by
  have hq : (buildQueryArgs pathname ps).detailsFilter =
      parseDetailsParam ps.details := rfl
  constructor
  · intro df hdf
    rw [hq] at hdf
    cases hps : ps.details with
    | none => rw [hps] at hdf; exact absurd hdf (by simp [parseDetailsParam])
    | some s =>
      rw [hps] at hdf
      simp only [parseDetailsParam] at hdf
      by_cases hs : s = ""
      · rw [if_pos hs] at hdf; exact absurd hdf (by simp)
      · rw [if_neg hs] at hdf
        have h2 := (List.mem_filter.1 hdf).2
        simpa [isEmpty_false_iff] using h2
  · intro s hs g hg hvals
    rw [hq, hs]
    simp only [parseDetailsParam]
    by_cases hse : s = ""
    · subst hse
      have : g = "" := by simpa [strSplit, splitOnChar] using hg
      subst this
      exact absurd (by decide : (parseDetailGroup "").values = []) hvals
    · rw [if_neg hse]
      refine List.mem_filter.2 ⟨List.mem_map_of_mem _ hg, ?_⟩
      simpa [isEmpty_false_iff] using hvals

/-- Witness for C3 at
`details = "Color:Red,Blue;Make:;NoColon"`: the surviving group. -/
theorem claim_C3_witness :
    (⟨"Color", ["Red", "Blue"]⟩ : DetailFilter) ∈
      (buildQueryArgs "/inventory"
        { details := some "Color:Red,Blue;Make:;NoColon" }).detailsFilter ∧
    (⟨"Color", ["Red", "Blue"]⟩ : DetailFilter).values ≠ [] := by
  constructor
  · have := (claim_C3 "/inventory"
      { details := some "Color:Red,Blue;Make:;NoColon" }).2
      "Color:Red,Blue;Make:;NoColon" rfl "Color:Red,Blue" (by decide) (by decide)
    simpa using this
  · decide

/-- A property entering `jsObjSet` is the assigned key or was already
there. -/
theorem mem_jsObjSet {st : List (String × Int)} {k : String} {v : Int}
    {e : String × Int} (h : e ∈ jsObjSet st k v) : e.1 = k ∨ e ∈ st := by
  unfold jsObjSet at h
  by_cases hc : st.any (fun x => x.1 == k)
  · rw [if_pos hc] at h
    obtain ⟨x, hx, hxe⟩ := List.mem_map.1 h
    by_cases hxk : x.1 == k
    · rw [if_pos hxk] at hxe
      left
      rw [← hxe]
    · rw [if_neg hxk] at hxe
      right
      rw [← hxe]
      exact hx
  · rw [if_neg hc] at h
    rcases List.mem_append.1 h with h1 | h2
    · right; exact h1
    · left
      have : e = (k, v) := by simpa using h2
      rw [this]

/-- Every property of the stage built by the `forEach` loop is a mapped
internal field or was in the initial stage. -/
theorem mem_applySortEntries {entries : List (String × Int)} :
    ∀ {st e}, e ∈ applySortEntries entries st →
      (∃ n, sortFieldMap n = some e.1) ∨ e ∈ st := by
  induction entries with
  | nil => intro st e h; right; exact h
  | cons x xs ih =>
    intro st e h
    unfold applySortEntries at h
    rw [List.foldl_cons] at h
    have h' : e ∈ applySortEntries xs
        (match sortFieldMap x.1 with
          | some f => jsObjSet st f x.2
          | none => st) := h
    rcases ih h' with h1 | h2
    · left; exact h1
    · cases hm : sortFieldMap x.1 with
      | some f =>
        rw [hm] at h2
        rcases mem_jsObjSet h2 with h3 | h4
        · left; exact ⟨x.1, by rw [hm, h3]⟩
        · right; exact h4
      | none =>
        rw [hm] at h2
        right
        exact h2

/-- When no entry's name is recognized, the `forEach` loop leaves the
stage unchanged. -/
theorem applySortEntries_of_none {entries : List (String × Int)}
    (h : ∀ e ∈ entries, sortFieldMap e.1 = none) :
    ∀ st, applySortEntries entries st = st := by
  induction entries with
  | nil => intro st; rfl
  | cons x xs ih =>
    intro st
    unfold applySortEntries
    rw [List.foldl_cons]
    have hx := h x (List.mem_cons_self x xs)
    rw [hx]
    exact ih (fun e he => h e (List.mem_cons_of_mem x he)) st

/-- C4: unrecognized `sortBy` field names are silently dropped — every
field of the sort stage is either an internal mapped numeric field or
the default creation-time field — and if no field survives the mapping
(in particular when `sortBy` names only unrecognized fields), the sort
is descending creation time. -/
theorem claim_C4 (p : Option String) :
    ((∀ s, p = some s →
        ∀ e ∈ (strSplit ',' s).map parseSortEntry, sortFieldMap e.1 = none) →
      computeSortStage p = [("createdAt", -1)]) ∧
    (∀ e ∈ computeSortStage p,
      e.1 = "createdAt" ∨ ∃ n, sortFieldMap n = some e.1) := by
  constructor
  · intro h
    cases p with
    | none => rfl
    | some s =>
      by_cases hs : s = ""
      · subst hs; rfl
      · have hraw : rawSortStage (some s) = [] := by
          simp only [rawSortStage, if_neg hs]
          exact applySortEntries_of_none (h s rfl) []
        unfold computeSortStage
        rw [hraw]
        rfl
  · intro e he
    unfold computeSortStage at he
    by_cases hemp : (rawSortStage p).isEmpty
    · rw [if_pos hemp] at he
      left
      have : e = ("createdAt", (-1 : Int)) := by simpa using he
      rw [this]
    · rw [if_neg hemp] at he
      cases p with
      | none =>
        left
        have : e = ("createdAt", (-1 : Int)) := by
          simpa [rawSortStage] using he
        rw [this]
      | some s =>
        by_cases hs : s = ""
        · left
          have : e = ("createdAt", (-1 : Int)) := by
            simpa [rawSortStage, hs] using he
          rw [this]
        · have he' : e ∈ applySortEntries
              ((strSplit ',' s).map parseSortEntry) [] := by
            simpa [rawSortStage, hs] using he
          rcases mem_applySortEntries he' with h1 | h2
          · right; exact h1
          · exact absurd h2 (by simp)

/-- Witness for C4 at `sortBy = "foo:asc,bar"` (only unrecognized
fields): the sort falls back to descending creation time. -/
theorem claim_C4_witness :
    computeSortStage (some "foo:asc,bar") = [("createdAt", -1)] :=
  (claim_C4 (some "foo:asc,bar")).1
    (by intro s hs; injection hs with h; subst h; decide)

/-- Every character list starts with itself. -/
theorem startsWithChars_refl : ∀ l : List Char, startsWithChars l l = true := by
  intro l
  induction l with
  | nil => rfl
  | cons c cs ih => simp [startsWithChars, ih]

/-- Every character list contains itself. -/
theorem containsChars_self : ∀ s : List Char, containsChars s s = true := by
  intro s
  cases s with
  | nil => rfl
  | cons c cs => simp [containsChars, startsWithChars_refl]

/-- A pathname whose leading-slash-stripped form is `"inventory"`
contains `"inventory"`. -/
theorem stripLeadingSlash_inventory {p : String}
    (h : stripLeadingSlash p = "inventory") :
    strContains p "inventory" = true := by
  unfold stripLeadingSlash at h
  unfold strContains
  cases hd : p.data with
  | nil =>
    simp only [hd] at h
    rw [h] at hd
    exact absurd hd (by decide)
  | cons c rest =>
    simp only [hd] at h
    by_cases hc : c = '/'
    · rw [if_pos hc] at h
      have hrest : rest = "inventory".data := congrArg String.data h
      unfold containsChars
      rw [hrest]
      simp [containsChars_self]
    · rw [if_neg hc] at h
      rw [h] at hd
      rw [hd]
      exact containsChars_self _

/-- The `GET` handler's rejection condition, reduced: the 400 branch. -/
theorem GET_rejected {titleMapKeys : List String} {db : List Listing}
    {refererPath : String} {ps : SearchParams}
    (h : (!strContains (stripTrailingSlash refererPath) "inventory" &&
        !titleMapKeys.contains (stripTrailingSlash refererPath)) = true) :
    GET titleMapKeys db refererPath ps =
      { status := 400
        data := []
        pagination :=
          { currentPage := jsOrNum (jsParseInt (jsOrDefault ps.page "1")) 1
            totalPages := .num 0
            limit := jsOrNum (jsParseInt (jsOrDefault ps.limit "24")) 10
            totalItems := 0
            priceRange := none } } := by
  unfold GET
  simp only [h, if_true]

/-- The `GET` handler's rejection condition, reduced: the 200 branch. -/
theorem GET_accepted {titleMapKeys : List String} {db : List Listing}
    {refererPath : String} {ps : SearchParams}
    (h : (!strContains (stripTrailingSlash refererPath) "inventory" &&
        !titleMapKeys.contains (stripTrailingSlash refererPath)) = false) :
    GET titleMapKeys db refererPath ps =
      { status := 200
        data := (runPipeline
          (buildQueryArgs (stripTrailingSlash refererPath) ps) db).cars
        pagination :=
          { currentPage := jsParseInt (jsOrDefault ps.page "1")
            totalPages := jsCeilDivNat
              (runPipeline
                (buildQueryArgs (stripTrailingSlash refererPath) ps) db).totalCars
              (jsParseInt (jsOrDefault ps.limit "24"))
            limit := jsParseInt (jsOrDefault ps.limit "24")
            totalItems := (runPipeline
              (buildQueryArgs (stripTrailingSlash refererPath) ps) db).totalCars
            priceRange := some (runPipeline
              (buildQueryArgs (stripTrailingSlash refererPath) ps) db).priceRange } } := by
  unfold GET
  simp only [h, Bool.false_eq_true, if_false]

/-- C5: the handler answers 400 before building any query exactly when
the category derived from the referer path is neither the literal
`"inventory"` nor a known mapped category key (the pathname is matched
against the key list exactly as the code matches it against
`Object.keys(titleMap)`); otherwise the request proceeds to query
execution and is answered 200. -/
theorem claim_C5 (titleMapKeys : List String) (db : List Listing)
    (refererPath : String) (ps : SearchParams) :
    ((GET titleMapKeys db refererPath ps).status = 400 ∨
      (GET titleMapKeys db refererPath ps).status = 200) ∧
    ((GET titleMapKeys db refererPath ps).status = 400 ↔
      (derivedCategory (stripTrailingSlash refererPath) ≠ "inventory" ∧
        titleMapKeys.contains (stripTrailingSlash refererPath) = false)) := by
  by_cases h1 : strContains (stripTrailingSlash refererPath) "inventory" = true
  · have hc : (!strContains (stripTrailingSlash refererPath) "inventory" &&
        !titleMapKeys.contains (stripTrailingSlash refererPath)) = false := by
      simp [h1]
    rw [GET_accepted hc]
    refine ⟨Or.inr rfl, ?_⟩
    constructor
    · intro hst
      simp at hst
    · rintro ⟨hcat, -⟩
      exfalso
      apply hcat
      unfold derivedCategory
      rw [if_pos h1]
  · have h1' : strContains (stripTrailingSlash refererPath) "inventory" = false :=
      Bool.eq_false_iff.2 h1
    by_cases h2 : titleMapKeys.contains (stripTrailingSlash refererPath) = true
    · have h2m : stripTrailingSlash refererPath ∈ titleMapKeys := by
        simpa using h2
      have hc : (!strContains (stripTrailingSlash refererPath) "inventory" &&
          !titleMapKeys.contains (stripTrailingSlash refererPath)) = false := by
        simp [h2m]
      rw [GET_accepted hc]
      refine ⟨Or.inr rfl, ?_⟩
      constructor
      · intro hst
        simp at hst
      · rintro ⟨-, hcf⟩
        rw [h2] at hcf
        exact absurd hcf (by decide)
    · have h2' : titleMapKeys.contains (stripTrailingSlash refererPath) = false :=
        Bool.eq_false_iff.2 h2
      have h2m : stripTrailingSlash refererPath ∉ titleMapKeys := by
        simpa using h2'
      have hc : (!strContains (stripTrailingSlash refererPath) "inventory" &&
          !titleMapKeys.contains (stripTrailingSlash refererPath)) = true := by
        simp [h1', h2m]
      rw [GET_rejected hc]
      refine ⟨Or.inl rfl, ?_⟩
      constructor
      · intro _
        refine ⟨?_, h2'⟩
        intro hcat
        unfold derivedCategory at hcat
        rw [h1'] at hcat
        simp only [Bool.false_eq_true, if_false] at hcat
        have := stripLeadingSlash_inventory hcat
        rw [h1'] at this
        exact absurd this (by decide)
      · intro _
        rfl

/-- C2: a GET listing-search request that reaches query execution and
whose filtered set is empty is not answered with an error: status 200,
an empty listings array, zero total items, and price range
`min: 0, max: 0`. -/
theorem claim_C2 (titleMapKeys : List String) (db : List Listing)
    (refererPath : String) (ps : SearchParams)
    (hcat : strContains (stripTrailingSlash refererPath) "inventory" = true ∨
      stripTrailingSlash refererPath ∈ titleMapKeys)
    (hempty : filterListings
      (buildQueryArgs (stripTrailingSlash refererPath) ps) db = []) :
    (GET titleMapKeys db refererPath ps).status = 200 ∧
    (GET titleMapKeys db refererPath ps).data = [] ∧
    (GET titleMapKeys db refererPath ps).pagination.totalItems = 0 ∧
    (GET titleMapKeys db refererPath ps).pagination.priceRange =
      some { min := 0, max := 0 } := by
  have hc : (!strContains (stripTrailingSlash refererPath) "inventory" &&
      !titleMapKeys.contains (stripTrailingSlash refererPath)) = false := by
    rcases hcat with h | h
    · simp [h]
    · simp [h]
  rw [GET_accepted hc]
  refine ⟨rfl, ?_, ?_, ?_⟩
  · show (runPipeline (buildQueryArgs (stripTrailingSlash refererPath) ps) db).cars = []
    unfold runPipeline
    rw [hempty]
    simp [sortListings]
  · show (runPipeline
      (buildQueryArgs (stripTrailingSlash refererPath) ps) db).totalCars = 0
    unfold runPipeline
    rw [hempty]
    simp
  · show some (runPipeline
        (buildQueryArgs (stripTrailingSlash refererPath) ps) db).priceRange =
      some { min := 0, max := 0 }
    unfold runPipeline
    rw [hempty]
    simp [priceRangeOf]

/-- Witness for C2: an empty collection filters to the empty set. -/
theorem claim_C2_witness :
    (GET [] [] "/inventory" {}).status = 200 ∧
    (GET [] [] "/inventory" {}).data = [] ∧
    (GET [] [] "/inventory" {}).pagination.totalItems = 0 ∧
    (GET [] [] "/inventory" {}).pagination.priceRange =
      some { min := 0, max := 0 } :=
  claim_C2 [] [] "/inventory" {} (Or.inl (by decide)) rfl

/-- `(a + b - 1) / b` in natural arithmetic is the ceiling of the exact
quotient `a / b` when `b` is positive. -/
theorem natCeilDiv_eq_ceil (a b : Nat) (hb : 0 < b) :
    (((a + b - 1) / b : Nat) : Int) = ⌈(a : ℚ) / (b : ℚ)⌉ := by
  obtain ⟨r, hr, hdm⟩ : ∃ r, r < b ∧ b * ((a + b - 1) / b) + r = a + b - 1 :=
    ⟨(a + b - 1) % b, Nat.mod_lt _ hb, Nat.div_add_mod _ _⟩
  set q : Nat := (a + b - 1) / b with hq
  have hm : ∃ m, b * q = m := ⟨b * q, rfl⟩
  obtain ⟨m, hbm⟩ := hm
  rw [hbm] at hdm
  have key1 : a ≤ m := by omega
  have key2 : m + 1 ≤ a + b := by omega
  have hbQ : (0 : ℚ) < (b : ℚ) := by exact_mod_cast hb
  have hmQ : ((b : ℚ)) * ((q : ℚ)) = (m : ℚ) := by exact_mod_cast hbm
  symm
  rw [Int.ceil_eq_iff]
  constructor
  · push_cast
    rw [lt_div_iff₀ hbQ]
    have key2Q : (m : ℚ) + 1 ≤ (a : ℚ) + (b : ℚ) := by exact_mod_cast key2
    nlinarith
  · push_cast
    rw [div_le_iff₀ hbQ]
    have key1Q : (a : ℚ) ≤ (m : ℚ) := by exact_mod_cast key1
    nlinarith

/-- C1: every GET listing-search answer with status 200 reports
`totalPages` equal to the ceiling of `totalItems / limit`, `totalItems`
being the total count of matching listings and `limit` the requested
page size. -/
theorem claim_C1 (titleMapKeys : List String) (db : List Listing)
    (refererPath : String) (ps : SearchParams) (l : Int)
    (hstatus : (GET titleMapKeys db refererPath ps).status = 200)
    (hl : (GET titleMapKeys db refererPath ps).pagination.limit = JsNum.num l)
    (hpos : 0 < l) :
    (GET titleMapKeys db refererPath ps).pagination.totalPages =
      JsNum.num ⌈((GET titleMapKeys db refererPath ps).pagination.totalItems : ℚ) /
        (l : ℚ)⌉ := by
  by_cases hc : (!strContains (stripTrailingSlash refererPath) "inventory" &&
      !titleMapKeys.contains (stripTrailingSlash refererPath)) = true
  · rw [GET_rejected hc] at hstatus
    simp at hstatus
  · have hc' : (!strContains (stripTrailingSlash refererPath) "inventory" &&
        !titleMapKeys.contains (stripTrailingSlash refererPath)) = false :=
      Bool.eq_false_iff.2 hc
    rw [GET_accepted hc'] at hl ⊢
    have hl' : jsParseInt (jsOrDefault ps.limit "24") = JsNum.num l := hl
    show jsCeilDivNat
        (runPipeline (buildQueryArgs (stripTrailingSlash refererPath) ps) db).totalCars
        (jsParseInt (jsOrDefault ps.limit "24")) =
      JsNum.num ⌈((runPipeline
        (buildQueryArgs (stripTrailingSlash refererPath) ps) db).totalCars : ℚ) /
        (l : ℚ)⌉
    rw [hl']
    simp only [jsCeilDivNat]
    rw [if_neg (by omega : ¬l = 0), if_pos hpos]
    have hlt : ((l.toNat : Nat) : Int) = l := Int.toNat_of_nonneg hpos.le
    have hltQ : ((l.toNat : Nat) : ℚ) = (l : ℚ) := by exact_mod_cast hlt
    have hbpos : 0 < l.toNat := by omega
    rw [← hltQ]
    exact congrArg JsNum.num (natCeilDiv_eq_ceil _ _ hbpos)

/-- Five listings visible to an unfiltered inventory query. -/
def db5 : List Listing :=
  [ { title := "A", domain := ["cars"], details := [], features := [],
      numericPrice := 100, createdAt := 1 },
    { title := "B", domain := ["cars"], details := [], features := [],
      numericPrice := 200, createdAt := 2 },
    { title := "C", domain := ["cars"], details := [], features := [],
      numericPrice := 300, createdAt := 3 },
    { title := "D", domain := ["cars"], details := [], features := [],
      numericPrice := 400, createdAt := 4 },
    { title := "E", domain := ["cars"], details := [], features := [],
      numericPrice := 500, createdAt := 5 } ]

/-- Witness for C1: 5 matching listings at `limit=2` give
`totalPages = ⌈5 / 2⌉ = 3` (the spec's own example). -/
theorem claim_C1_witness :
    (GET [] db5 "/inventory" { limit := some "2" }).pagination.totalPages =
      JsNum.num ⌈((GET [] db5 "/inventory"
        { limit := some "2" }).pagination.totalItems : ℚ) / ((2 : Int) : ℚ)⌉ ∧
    (GET [] db5 "/inventory" { limit := some "2" }).pagination.totalPages =
      JsNum.num 3 := by
  have h := claim_C1 [] db5 "/inventory" { limit := some "2" } 2
    (by decide) (by decide) (by decide)
  refine ⟨h, ?_⟩
  have h5 : (GET [] db5 "/inventory"
      { limit := some "2" }).pagination.totalItems = 5 := by decide
  rw [h, h5]
  congr 1
  push_cast
  rw [Int.ceil_eq_iff]
  norm_num

/-- If the image traversal returned records, every single write
succeeded. -/
theorem uploadImages_ok_all {nowAt : Nat → Nat} {writeOk : String → Bool} :
    ∀ (k : Nat) (files : List UploadFile) (recs : List ImageRecord),
      uploadImages nowAt writeOk k files = .ok recs →
      ∀ i, ∀ hi : i < files.length,
        writeOk (imageFileName nowAt (k + i) (files.get ⟨i, hi⟩)) = true := by
  intro k files
  induction files generalizing k with
  | nil =>
    intro recs _ i hi
    exact absurd hi (by simp)
  | cons f fs ih =>
    intro recs h i hi
    unfold uploadImages at h
    by_cases hw : writeOk (imageFileName nowAt k f) = true
    · rw [if_pos hw] at h
      cases i with
      | zero => simpa using hw
      | succ j =>
        cases hrec : uploadImages nowAt writeOk (k + 1) fs with
        | ok rest =>
          have hj : j < fs.length := by simpa using hi
          have := ih (k + 1) rest hrec j hj
          have hidx : k + 1 + j = k + (j + 1) := by omega
          rw [hidx] at this
          simpa using this
        | error e =>
          rw [hrec] at h
          exact absurd h (by simp)
    · rw [if_neg hw] at h
      exact absurd h (by simp)

/-- One failing write makes the whole image traversal fail. -/
theorem uploadImages_error {nowAt : Nat → Nat} {writeOk : String → Bool} :
    ∀ (k : Nat) (files : List UploadFile) (i : Nat) (hi : i < files.length),
      writeOk (imageFileName nowAt (k + i) (files.get ⟨i, hi⟩)) = false →
      uploadImages nowAt writeOk k files = .error () := by
  intro k files
  induction files generalizing k with
  | nil =>
    intro i hi
    exact absurd hi (by simp)
  | cons f fs ih =>
    intro i hi hw
    unfold uploadImages
    by_cases hw0 : writeOk (imageFileName nowAt k f) = true
    · rw [if_pos hw0]
      cases i with
      | zero =>
        rw [Nat.add_zero] at hw
        simp only [List.get] at hw
        rw [hw] at hw0
        exact absurd hw0 (by decide)
      | succ j =>
        have hj : j < fs.length := by simpa using hi
        have hidx : k + (j + 1) = k + 1 + j := by omega
        rw [hidx] at hw
        have herr := ih (k + 1) j hj (by simpa using hw)
        rw [herr]
    · rw [if_neg hw0]

/-- The record list the all-writes-succeed traversal produces. -/
def imageRecords (nowAt : Nat → Nat) : Nat → List UploadFile → List ImageRecord
  | _, [] => []
  | k, f :: fs =>
    { filename := imageFileName nowAt k f
      path := "api/uploads/" ++ imageFileName nowAt k f }
      :: imageRecords nowAt (k + 1) fs

/-- When every write succeeds the traversal returns exactly the record
list of `imageRecords`. -/
theorem uploadImages_ok_of_all {nowAt : Nat → Nat} {writeOk : String → Bool} :
    ∀ (k : Nat) (files : List UploadFile),
      (∀ i, ∀ hi : i < files.length,
        writeOk (imageFileName nowAt (k + i) (files.get ⟨i, hi⟩)) = true) →
      uploadImages nowAt writeOk k files = .ok (imageRecords nowAt k files) := by
  intro k files
  induction files generalizing k with
  | nil => intro _; rfl
  | cons f fs ih =>
    intro h
    unfold uploadImages
    have hw0 : writeOk (imageFileName nowAt k f) = true := by
      have := h 0 (by simp)
      simpa using this
    rw [if_pos hw0]
    have hrest : uploadImages nowAt writeOk (k + 1) fs =
        .ok (imageRecords nowAt (k + 1) fs) := by
      apply ih
      intro i hi
      have hidx : k + 1 + i = k + (i + 1) := by omega
      rw [hidx]
      have := h (i + 1) (by simpa using Nat.succ_lt_succ hi)
      simpa using this
    rw [hrest]
    rfl

/-- `imageRecords` has one record per attachment. -/
theorem imageRecords_length (nowAt : Nat → Nat) :
    ∀ (k : Nat) (files : List UploadFile),
      (imageRecords nowAt k files).length = files.length := by
  intro k files
  induction files generalizing k with
  | nil => rfl
  | cons f fs ih => simp [imageRecords, ih]

/-- The `i`-th record of `imageRecords`. -/
theorem imageRecords_get (nowAt : Nat → Nat) :
    ∀ (k : Nat) (files : List UploadFile) (i : Nat)
      (hi : i < files.length) (hi2 : i < (imageRecords nowAt k files).length),
      (imageRecords nowAt k files).get ⟨i, hi2⟩ =
        { filename := imageFileName nowAt (k + i) (files.get ⟨i, hi⟩)
          path := "api/uploads/" ++ imageFileName nowAt (k + i) (files.get ⟨i, hi⟩) } := by
  intro k files
  induction files generalizing k with
  | nil =>
    intro i hi
    exact absurd hi (by simp)
  | cons f fs ih =>
    intro i hi hi2
    cases i with
    | zero => rfl
    | succ j =>
      have hj : j < fs.length := by simpa using hi
      have hj2 : j < (imageRecords nowAt (k + 1) fs).length := by
        rw [imageRecords_length]
        exact hj
      have hidx : k + 1 + j = k + (j + 1) := by omega
      have := ih (k + 1) j hj hj2
      rw [hidx] at this
      simpa [imageRecords] using this

/-- C6: if writing any one attached image fails, the whole ingestion
aborts — no listing document is persisted and the response is status
500 — and a listing document is saved only when every image write has
completed successfully. -/
theorem claim_C6 (nowAt : Nat → Nat) (writeOk : String → Bool)
    (files : List UploadFile) (fields : CarFields) :
    ((∃ i, ∃ hi : i < files.length,
        writeOk (imageFileName nowAt i (files.get ⟨i, hi⟩)) = false) →
      (POST nowAt writeOk files fields).status = 500 ∧
      (POST nowAt writeOk files fields).saved = none) ∧
    (∀ car, (POST nowAt writeOk files fields).saved = some car →
      ∀ i, ∀ hi : i < files.length,
        writeOk (imageFileName nowAt i (files.get ⟨i, hi⟩)) = true) := by
  constructor
  · rintro ⟨i, hi, hw⟩
    have hw' : writeOk (imageFileName nowAt (0 + i) (files.get ⟨i, hi⟩)) = false := by
      rw [Nat.zero_add]
      exact hw
    have herr := uploadImages_error 0 files i hi hw'
    unfold POST
    rw [herr]
    exact ⟨rfl, rfl⟩
  · intro car hcar i hi
    unfold POST at hcar
    cases hrec : uploadImages nowAt writeOk 0 files with
    | error e =>
      rw [hrec] at hcar
      exact absurd hcar (by simp)
    | ok recs =>
      have := uploadImages_ok_all 0 files recs hrec i hi
      rw [Nat.zero_add] at this
      exact this

/-- Witness for C6: one attachment whose write fails gives status 500
and nothing saved. -/
theorem claim_C6_witness :
    (POST (fun _ => 7) (fun _ => false) [{ name := "a.png" }] {}).status = 500 ∧
    (POST (fun _ => 7) (fun _ => false) [{ name := "a.png" }] {}).saved = none :=
  (claim_C6 (fun _ => 7) (fun _ => false) [{ name := "a.png" }] {}).1
    ⟨0, by decide, rfl⟩

/-- C7: a successful ingestion with `n` attachments persists exactly
`n` files — one write per attachment, under a time-based prefix plus
the original name — and the saved listing's `images` array has exactly
`n` entries, each a filename/path pair with a non-empty filename and a
path derived from that filename. -/
theorem claim_C7 (nowAt : Nat → Nat) (writeOk : String → Bool)
    (files : List UploadFile) (fields : CarFields)
    (h : ∀ i, ∀ hi : i < files.length,
      writeOk (imageFileName nowAt i (files.get ⟨i, hi⟩)) = true) :
    (POST nowAt writeOk files fields).status = 200 ∧
    ∃ car, (POST nowAt writeOk files fields).saved = some car ∧
      car.images.length = files.length ∧
      ∀ i, ∀ hi : i < files.length, ∀ hi2 : i < car.images.length,
        (car.images.get ⟨i, hi2⟩).filename =
          toString (nowAt i) ++ "-" ++ (files.get ⟨i, hi⟩).name ∧
        (car.images.get ⟨i, hi2⟩).filename ≠ "" ∧
        (car.images.get ⟨i, hi2⟩).path =
          "api/uploads/" ++ (car.images.get ⟨i, hi2⟩).filename := by
  have h0 : ∀ i, ∀ hi : i < files.length,
      writeOk (imageFileName nowAt (0 + i) (files.get ⟨i, hi⟩)) = true := by
    intro i hi
    rw [Nat.zero_add]
    exact h i hi
  have hok := uploadImages_ok_of_all 0 files h0
  unfold POST
  rw [hok]
  refine ⟨rfl, ?_⟩
  refine ⟨_, rfl, ?_, ?_⟩
  · show (imageRecords nowAt 0 files).length = files.length
    exact imageRecords_length nowAt 0 files
  · intro i hi hi2
    have hget := imageRecords_get nowAt 0 files i hi hi2
    rw [Nat.zero_add] at hget
    refine ⟨?_, ?_, ?_⟩
    · rw [hget]
      rfl
    · rw [hget]
      intro hemp
      have := congrArg String.length hemp
      simp [String.length_append, imageFileName] at this
      exact absurd this.1.2 (by decide)
    · rw [hget]

/-- Witness for C7: two attachments at an all-succeeding store give
status 200 and two image records. -/
theorem claim_C7_witness :
    (POST (fun _ => 7) (fun _ => true)
      [{ name := "a.png" }, { name := "b.png" }] {}).status = 200 :=
  (claim_C7 (fun _ => 7) (fun _ => true)
    [{ name := "a.png" }, { name := "b.png" }] {} (fun _ _ => rfl)).1

end SonysAuto
